import Mathlib

/-!
Shallow embedding of the ray-tracer sources (src/lib.rs, src/vector.rs,
src/transform.rs, src/object.rs, src/material.rs) and proofs about the
frozen claims.

Numeric model: f32 values are modelled as exact rationals (ℚ). The machine
square root is modelled by ratSqrt, which is exact whenever the argument is
the square of a rational; every concrete input used in a theorem below is
chosen so that all square roots taken are exact. The trigonometric
functions, the constant PI and the rejection-sampling loop of
Material::lighting are kept abstract as parameters (FloatOps), since no
claim depends on their concrete values. The sRGB gamma curve of
Scene::render is modelled over the reals, where its power law is exact.
-/

namespace RayTracer

/-- Model of f32::sqrt on the rational model: exact whenever the argument is
the square of a rational written in lowest terms (numerator and denominator
both perfect squares); in particular exact on all square roots taken by the
concrete theorems below. Negative arguments (NaN in the source) map to 0 but
are never reached: the sphere code guards with d < 0. -/
def ratSqrt (q : ℚ) : ℚ := (Nat.sqrt q.num.toNat : ℚ) / (Nat.sqrt q.den : ℚ)

/-- Model of f32::clamp(lo, hi) from the source (used by Material::lighting). -/
def ratClamp (x lo hi : ℚ) : ℚ := max lo (min x hi)

/-- Vector3 from src/vector.rs: a 3-component vector of f32, modelled over ℚ. -/
structure Vector3 where
  x : ℚ
  y : ℚ
  z : ℚ
deriving DecidableEq

/-- Vector3::new from src/vector.rs. -/
def Vector3.new (x y z : ℚ) : Vector3 := ⟨x, y, z⟩

/-- Vector3::zeros from src/vector.rs. -/
def Vector3.zeros : Vector3 := ⟨0, 0, 0⟩

/-- Vector3::ones from src/vector.rs. -/
def Vector3.ones : Vector3 := ⟨1, 1, 1⟩

/-- Vector3::unit from src/vector.rs: normalizes (x, y, z). -/
def Vector3.unit (x y z : ℚ) : Vector3 :=
  let norm := ratSqrt (x ^ 2 + y ^ 2 + z ^ 2)
  ⟨x / norm, y / norm, z / norm⟩

/-- Vector3::squared_norm from src/vector.rs. -/
def Vector3.squared_norm (v : Vector3) : ℚ := v.x ^ 2 + v.y ^ 2 + v.z ^ 2

/-- Vector3::norm from src/vector.rs. -/
def Vector3.norm (v : Vector3) : ℚ := ratSqrt v.squared_norm

/-- Vector3::normalized from src/vector.rs. -/
def Vector3.normalized (v : Vector3) : Vector3 :=
  let norm := v.norm
  ⟨v.x / norm, v.y / norm, v.z / norm⟩

/-- Vector3::dot from src/vector.rs. -/
def Vector3.dot (v other : Vector3) : ℚ :=
  v.x * other.x + v.y * other.y + v.z * other.z

/-- Vector3::cross from src/vector.rs. -/
def Vector3.cross (v other : Vector3) : Vector3 :=
  ⟨v.y * other.z - v.z * other.y,
   v.z * other.x - v.x * other.z,
   v.x * other.y - v.y * other.x⟩

/-- Vector3::cwise from src/vector.rs: component-wise binary reduction. -/
def Vector3.cwise (v other : Vector3) (f : ℚ → ℚ → ℚ) : Vector3 :=
  ⟨f v.x other.x, f v.y other.y, f v.z other.z⟩

/-- Modelled from the spec: the body of Vector3::cwise_mul is a TODO stub in
src/vector.rs; its doc comment ("Component-wise multiplication") and the
test_cwise unit test in the same file fix the semantics. -/
def Vector3.cwise_mul (v other : Vector3) : Vector3 :=
  ⟨v.x * other.x, v.y * other.y, v.z * other.z⟩

/-- Modelled from the spec: the body of Vector3::cwise_div is a TODO stub in
src/vector.rs; its doc comment ("Component-wise division") and the
test_cwise unit test in the same file fix the semantics. -/
def Vector3.cwise_div (v other : Vector3) : Vector3 :=
  ⟨v.x / other.x, v.y / other.y, v.z / other.z⟩

/-- Modelled from the spec: the Add impl for Vector3 is a TODO stub in
src/vector.rs; §4.1 of the spec and the test_ops unit test fix it as
component-wise addition. -/
def Vector3.add (v other : Vector3) : Vector3 :=
  ⟨v.x + other.x, v.y + other.y, v.z + other.z⟩

/-- Modelled from the spec: the Sub impl for Vector3 is a TODO stub in
src/vector.rs; §4.1 of the spec and the test_ops unit test fix it as
component-wise subtraction. -/
def Vector3.sub (v other : Vector3) : Vector3 :=
  ⟨v.x - other.x, v.y - other.y, v.z - other.z⟩

/-- Modelled from the spec: the Mul impls (Vector3 * f32 and f32 * Vector3,
which the test_ops unit test requires to agree) are TODO stubs in
src/vector.rs; §4.1 of the spec fixes them as scalar multiplication. -/
def Vector3.smul (v : Vector3) (s : ℚ) : Vector3 :=
  ⟨v.x * s, v.y * s, v.z * s⟩

/-- Modelled from the spec: the Neg impl for Vector3 is a TODO stub in
src/vector.rs; §4.1 of the spec and the test_ops unit test fix it as
component-wise negation. -/
def Vector3.neg (v : Vector3) : Vector3 := ⟨-v.x, -v.y, -v.z⟩

/-- Ray from src/lib.rs. -/
structure Ray where
  origin : Vector3
  direction : Vector3
deriving DecidableEq

/-- Ray::new from src/lib.rs. -/
def Ray.new (origin direction : Vector3) : Ray := ⟨origin, direction⟩

/-- Ray::at from src/lib.rs. -/
def Ray.at (r : Ray) (t : ℚ) : Vector3 := r.origin.add (r.direction.smul t)

/-- Transform from src/transform.rs. -/
inductive Transform where
  | Scale : Vector3 → Transform
  | Translate : Vector3 → Transform
  | Rotate : Vector3 → ℚ → Transform
deriving DecidableEq

/-- Transform::inverse from src/transform.rs, translated verbatim: note that
the Scale arm of the source divides by scale.x() in all three components. -/
def Transform.inverse : Transform → Transform
  | Transform.Scale scale =>
      Transform.Scale (Vector3.new (1 / scale.x) (1 / scale.x) (1 / scale.x))
  | Transform.Rotate axis angle => Transform.Rotate axis (-angle)
  | Transform.Translate delta => Transform.Translate delta.neg

/-- Transform::transform from src/transform.rs. cosF and sinF model the f32
cosine and sine used by the Rotate arm (Rodrigues formula). -/
def Transform.transform (cosF sinF : ℚ → ℚ) : Transform → Vector3 → Vector3
  | Transform.Scale scale, vector =>
      Vector3.new (vector.x * scale.x) (vector.y * scale.y) (vector.z * scale.z)
  | Transform.Rotate axis angle, vector =>
      let cos_theta := cosF angle
      let sin_theta := sinF angle
      let dot := vector.dot axis
      let cross := axis.cross vector
      ((vector.smul cos_theta).add (cross.smul sin_theta)).add
        ((axis.smul dot).smul (1 - cos_theta))
  | Transform.Translate delta, vector => vector.add delta

/-- Transform::transform_ray from src/transform.rs. -/
def Transform.transform_ray (cosF sinF : ℚ → ℚ) (t : Transform) (ray : Ray) : Ray :=
  match t with
  | Transform.Scale _ | Transform.Rotate _ _ =>
      ⟨t.transform cosF sinF ray.origin, t.transform cosF sinF ray.direction⟩
  | Transform.Translate _ => ⟨t.transform cosF sinF ray.origin, ray.direction⟩

/-- Intersection from src/object.rs. -/
structure Intersection where
  position : Vector3
  normal : Vector3
deriving DecidableEq

/-- Material from src/material.rs. -/
inductive Material where
  | Emissive : Vector3 → ℚ → Material
  | Diffuse : Vector3 → Material
  | Specular : Vector3 → ℚ → Material
deriving DecidableEq

/-- Shape from src/object.rs. -/
inductive Shape where
  | Sphere : Shape
  | Plane : Shape
deriving DecidableEq

/-- Shape::intersection from src/object.rs (the Renderable impl for Shape),
translated arm by arm. The f32 literal 1.0e-6 is the rational 1/1000000. -/
def Shape.intersection : Shape → Ray → Option (ℚ × Intersection)
  | Shape.Sphere, ray =>
    let a := ray.direction.squared_norm
    let b := 2 * ray.direction.dot ray.origin
    let c := ray.origin.squared_norm - 1
    let d := b ^ 2 - 4 * a * c
    if d < 0 then none
    else
      let t := (-b - ratSqrt d) / (2 * a)
      let position := ray.origin.add (ray.direction.smul t)
      let normal := position.normalized
      some (t, ⟨position, normal⟩)
  | Shape.Plane, ray =>
    let n := Vector3.new 0 0 1
    let a := -(ray.origin.dot n)
    let b := ray.direction.dot n
    if |b| < 1 / 1000000 then none
    else
      let t := a / b
      if t < 0 then none
      else
        let position := ray.origin.add (ray.direction.smul t)
        if position.x > 1 ∨ position.y > 1 then none
        else
          let normal := if b < 0 then n else n.neg
          some (t, ⟨position, normal⟩)

/-- Object from src/object.rs. -/
structure Object where
  object : Shape
  material : Material
  transforms : List Transform
deriving DecidableEq

/-- FloatOps collects the modelled machine parameters: f32 cosine and sine,
the constant std::f32::consts::PI, and pick, the unit direction that the
rejection-sampling loop at the top of Material::lighting breaks with for a
given surface normal (the loop draws from the thread RNG; its only
observable result is the accepted direction). -/
structure FloatOps where
  cosF : ℚ → ℚ
  sinF : ℚ → ℚ
  piF : ℚ
  pick : Vector3 → Vector3

/-- Object::intersection from src/object.rs (the Renderable impl for
Object): inverse transforms in reverse order on the ray, then the shape
test, then forward transforms on the position and the normal-specific rule
on the normal, renormalized. -/
def Object.intersection (F : FloatOps) (self : Object) (ray : Ray) :
    Option (ℚ × Intersection) :=
  let ray_t := self.transforms.reverse.foldl
    (fun r t => Transform.transform_ray F.cosF F.sinF t.inverse r) ray
  match self.object.intersection ray_t with
  | none => none
  | some (t, local_i) =>
    let position := self.transforms.foldl
      (fun p t => t.transform F.cosF F.sinF p) local_i.position
    let normal := (self.transforms.foldl (fun p t =>
        match t with
        | Transform.Translate _ => p
        | Transform.Rotate _ _ => t.transform F.cosF F.sinF p
        | Transform.Scale _ => t.inverse.transform F.cosF F.sinF p)
      local_i.normal).normalized
    some (t, ⟨position, normal⟩)

/-- Camera from src/lib.rs. -/
structure Camera where
  focal_len : ℚ
  width : ℚ
deriving DecidableEq

/-- Camera::ray from src/lib.rs (aspect is named aspect_ratio in the
source). -/
def Camera.ray (self : Camera) (x y x_res y_res : ℕ) : Ray :=
  let aspect := (x_res : ℚ) / (y_res : ℚ)
  let dw := self.width / (x_res : ℚ)
  let dh := self.width / ((y_res : ℚ) * aspect)
  let x_i := ((x : ℚ) - (x_res : ℚ) / 2) * dw
  let y_i := ((y : ℚ) - (y_res : ℚ) / 2) * dh
  Ray.new Vector3.zeros (Vector3.unit x_i (-y_i) self.focal_len)

/-- Scene from src/lib.rs (module scene). -/
structure Scene where
  camera : Camera
  objects : List Object

/-- The fold step of Scene::closest_intersection from src/lib.rs, with the
two guarded match arms and the catch-all arm of the source. -/
def iStep (tmin : ℚ) (c : Option (ℚ × Intersection × Object))
    (oi : Object × Option (ℚ × Intersection)) : Option (ℚ × Intersection × Object) :=
  match c, oi.2 with
  | none, some (t, int) => if tmin < t then some (t, int, oi.1) else none
  | some (t_c, int_c, o_c), some (t, int) =>
      if t < t_c ∧ tmin < t then some (t, int, oi.1) else some (t_c, int_c, o_c)
  | _, _ => c

/-- Scene::closest_intersection from src/lib.rs: map each object to its
intersection result and fold with iStep starting from None. -/
def Scene.closest_intersection (F : FloatOps) (self : Scene) (ray : Ray)
    (tmin : ℚ) : Option (ℚ × Intersection × Object) :=
  (self.objects.map (fun o => (o, Object.intersection F o ray))).foldl
    (iStep tmin) none

/-- The match over the material variants at the end of Material::lighting in
src/material.rs, with the sampled direction and the recursively sampled
incoming radiance passed in. Scalar-by-vector products of the source are
written with Vector3.smul. -/
def Material.shade (F : FloatOps) (m : Material) (view dir normal incoming : Vector3) :
    Vector3 :=
  match m with
  | Material.Emissive color intensity => color.smul intensity
  | Material.Diffuse color =>
    let brdf := color.smul (dir.dot normal / F.piF)
    (brdf.cwise_mul incoming).smul (2 * F.piF)
  | Material.Specular color roughness =>
    let halfway := (view.add dir).normalized
    let d := ratClamp ((normal.dot halfway) ^ 2 /
      (roughness * roughness - 2 * roughness + F.piF)) 0 1
    let g := 1 / ratClamp (4 * (view.dot halfway) ^ 2) 0 1
    let brdf := (color.smul (d * g)).cwise_mul incoming
    brdf.smul (2 * F.piF)

/-- Scene::sample from src/lib.rs. The source signature is
sample(ray, tmin, bounces) with lighting called on the hit material at one
fewer bounce; here bounces comes first so the mutual recursion
sample → lighting → sample becomes structural on the bounce budget, with the
body of Material::lighting inlined through Material.shade (the lemma
sample_succ below recovers the source control flow verbatim). The f32
literal 1.0e-3 is the rational 1/1000. -/
def Scene.sample (F : FloatOps) (self : Scene) : Nat → Ray → ℚ → Vector3
  | 0, _, _ => Vector3.zeros
  | Nat.succ b, ray, tmin =>
    match self.closest_intersection F ray tmin with
    | none => Vector3.zeros
    | some (_, inter, obj) =>
      Material.shade F obj.material ray.direction.neg (F.pick inter.normal)
        inter.normal
        (Scene.sample F self b (Ray.new inter.position (F.pick inter.normal))
          (1 / 1000))

/-- Material::lighting from src/material.rs: draw a hemisphere direction
(modelled by F.pick), recursively sample the scene along it with
tmin = 1e-3 and the given bounce budget, then combine according to the
material variant. -/
def Material.lighting (F : FloatOps) (m : Material) (view position normal : Vector3)
    (scene : Scene) (bounces : Nat) : Vector3 :=
  let dir := F.pick normal
  let incoming := Scene.sample F scene bounces (Ray.new position dir) (1 / 1000)
  Material.shade F m view dir normal incoming

/-- Follows the words of claim C3 (and §4.5 of the spec): identical to the
Specular arm of Material::lighting except that the geometry term is
clamp(1/(4·(view·halfway)²), 0, 1), the clamp applied to the quotient. -/
def lightingSpecClaimed (F : FloatOps) (color : Vector3) (roughness : ℚ)
    (view position normal : Vector3) (scene : Scene) (bounces : Nat) : Vector3 :=
  let dir := F.pick normal
  let incoming := Scene.sample F scene bounces (Ray.new position dir) (1 / 1000)
  let halfway := (view.add dir).normalized
  let d := ratClamp ((normal.dot halfway) ^ 2 /
    (roughness * roughness - 2 * roughness + F.piF)) 0 1
  let g := ratClamp (1 / (4 * (view.dot halfway) ^ 2)) 0 1
  ((color.smul (d * g)).cwise_mul incoming).smul (2 * F.piF)

/-- The srgb_gamma closure inside Scene::render in src/lib.rs, modelled over
the reals (the power law u^(1/2.4) is exact there). -/
noncomputable def srgb_gamma (u : ℝ) : ℝ :=
  if u < 0.0031308 then 12.92 * u else 1.055 * u ^ ((1 : ℝ) / 2.4) - 0.055

/-- Concrete FloatOps instance used by the closed theorems below. -/
def F0 : FloatOps :=
  ⟨fun _ => 1, fun _ => 0, 314159 / 100000, fun _ => Vector3.new 0 0 1⟩

/-- A concrete ray from (0,0,-5) toward +z. -/
def ray0 : Ray := Ray.new (Vector3.new 0 0 (-5)) (Vector3.new 0 0 1)

/-- A concrete scene with no objects. -/
def emptyScene : Scene := ⟨⟨1, 1⟩, []⟩

/-- A concrete untransformed unit sphere with an emissive material. -/
def emissiveSphere : Object := ⟨Shape.Sphere, Material.Emissive Vector3.ones 1, []⟩

/-- A concrete scene holding only emissiveSphere. -/
def sceneEm : Scene := ⟨⟨1, 1⟩, [emissiveSphere]⟩

end RayTracer

namespace RayTracer

/-- ratSqrt is exact at 1. -/
theorem ratSqrt_one : ratSqrt 1 = 1 := by
  rw [ratSqrt]
  norm_num

/-- ratSqrt is exact at 4. -/
theorem ratSqrt_four : ratSqrt 4 = 2 := by
  rw [ratSqrt]
  norm_num
  simp
  norm_num

/-- ratSqrt is exact at 81/16. -/
theorem ratSqrt_81_16 : ratSqrt (81 / 16) = 9 / 4 := by
  rw [ratSqrt]
  norm_num
  simp
  norm_num


/-- Unfolding lemma for the fold step: empty accumulator, missing hit. -/
theorem iStep_none_none (tmin : ℚ) (o : Object) :
    iStep tmin none (o, none) = none := rfl

/-- Unfolding lemma for the fold step: empty accumulator, present hit. -/
theorem iStep_none_some (tmin t : ℚ) (o : Object) (i : Intersection) :
    iStep tmin none (o, some (t, i)) = if tmin < t then some (t, i, o) else none := rfl

/-- Unfolding lemma for the fold step: kept accumulator, missing hit. -/
theorem iStep_some_none (tmin : ℚ) (b : ℚ × Intersection × Object) (o : Object) :
    iStep tmin (some b) (o, none) = some b := by
  rcases b with ⟨tc, ic, oc⟩
  rfl

/-- Unfolding lemma for the fold step: kept accumulator, present hit. -/
theorem iStep_some_some (tmin tc t : ℚ) (ic i : Intersection) (oc o : Object) :
    iStep tmin (some (tc, ic, oc)) (o, some (t, i)) =
      if t < tc ∧ tmin < t then some (t, i, o) else some (tc, ic, oc) := rfl

/-- Normalizing the unit vector toward negative z is the identity. -/
theorem normalized_negz :
    (Vector3.new 0 0 (-1)).normalized = Vector3.new 0 0 (-1) := by
  norm_num [Vector3.normalized, Vector3.norm, Vector3.squared_norm, Vector3.new, ratSqrt_one]

/-- Helper: the canonical sphere intersected by ray0, in local space. -/
theorem sphere_eval_ray0 :
    Shape.intersection Shape.Sphere ray0 =
      some (4, ⟨Vector3.new 0 0 (-1), Vector3.new 0 0 (-1)⟩) := by
  rw [Shape.intersection]
  norm_num [ray0, Ray.new, Vector3.new, Vector3.squared_norm, Vector3.dot,
    Vector3.add, Vector3.smul, Vector3.normalized, Vector3.norm, ratSqrt_four, ratSqrt_one]

/-- Helper: the untransformed emissive unit sphere intersected by ray0. -/
theorem objectIntersection_emSphere :
    Object.intersection F0 emissiveSphere ray0 =
      some (4, ⟨Vector3.new 0 0 (-1), Vector3.new 0 0 (-1)⟩) := by
  rw [Object.intersection]
  simp only [emissiveSphere, List.reverse_nil, List.foldl_nil, sphere_eval_ray0,
    normalized_negz]

end RayTracer

namespace RayTracer

/-- Helper: closest intersection in the one-object emissive scene. -/
theorem closest_emSphere :
    Scene.closest_intersection F0 sceneEm ray0 (1 / 1000) =
      some (4, ⟨Vector3.new 0 0 (-1), Vector3.new 0 0 (-1)⟩, emissiveSphere) := by
  rw [Scene.closest_intersection,
    show sceneEm.objects = [emissiveSphere] from rfl,
    List.map_cons, List.map_nil, List.foldl_cons, List.foldl_nil,
    objectIntersection_emSphere, iStep_none_some]
  norm_num

/-- Helper: one-bounce sample of the emissive scene along ray0. -/
theorem sample_emSphere :
    Scene.sample F0 sceneEm 1 ray0 (1 / 1000) = Vector3.new 1 1 1 := by
  show Scene.sample F0 sceneEm (0 + 1) ray0 (1 / 1000) = Vector3.new 1 1 1
  rw [Scene.sample, closest_emSphere]
  norm_num [Material.shade, emissiveSphere, Vector3.ones, Vector3.smul, Vector3.new]

end RayTracer

namespace RayTracer

/-- Claim C1: per the spec, Transform::inverse of Scale(s) should be the
per-component reciprocal scale and the round trip t.inverse().transform(
t.transform(p)) should restore p. The code instead builds the inverse from
1/s.x in all three components, so for the non-uniform scale (2,4,8) the
inverse is Scale(1/2,1/2,1/2) and the round trip on p=(1,1,1) yields
(1,2,4) ≠ p. This theorem evaluates the code at that failing input, for
every model of cosine and sine (the Scale arms do not use them). -/
theorem scale_inverse_component_bug (cosF sinF : ℚ → ℚ) :
    Transform.inverse (Transform.Scale (Vector3.new 2 4 8)) =
      Transform.Scale (Vector3.new (1 / 2) (1 / 2) (1 / 2))
    ∧ Transform.transform cosF sinF
        (Transform.inverse (Transform.Scale (Vector3.new 2 4 8)))
        (Transform.transform cosF sinF (Transform.Scale (Vector3.new 2 4 8))
          (Vector3.new 1 1 1)) = Vector3.new 1 2 4
    ∧ Vector3.new 1 2 4 ≠ Vector3.new 1 1 1 := by
  refine ⟨?_, ?_, ?_⟩ <;>
    norm_num [Transform.inverse, Transform.transform, Vector3.new, Vector3.mk.injEq]

/-- Claim C2: the spec requires Plane hits outside the unit square
x, y ∈ [−1, 1] to be rejected, but the code only tests x > 1 and y > 1.
The local ray from (−5,0,1) toward −z meets z=0 at (−5,0,0), whose x
component −5 lies outside the unit square, yet the code returns a hit.
This theorem evaluates the code at that failing input. -/
theorem plane_outside_unit_square_hit :
    Shape.intersection Shape.Plane
        (Ray.new (Vector3.new (-5) 0 1) (Vector3.new 0 0 (-1))) =
      some (1, ⟨Vector3.new (-5) 0 0, Vector3.new 0 0 1⟩)
    ∧ ((-5 : ℚ) < -1) := by
  rw [Shape.intersection]
  norm_num [Ray.new, Vector3.new, Vector3.dot, Vector3.add, Vector3.smul, Vector3.neg]

/-- Claim C9: the canonical unit sphere hit by the ray from (0,0,−5)
toward +z at t = 4, position (0,0,−1), normal (0,0,−1). -/
theorem sphere_axial_hit_values :
    Shape.intersection Shape.Sphere
        (Ray.new (Vector3.new 0 0 (-5)) (Vector3.new 0 0 1)) =
      some (4, ⟨Vector3.new 0 0 (-1), Vector3.new 0 0 (-1)⟩) :=
  sphere_eval_ray0

/-- Claim C8: for the ray starting at the center of the unit sphere toward
+x the code returns a hit (at t = −1): the near root (−b−√d)/(2a) = −1 is
taken even though it is behind the ray, and the far root
(−b+√d)/(2a) = 1, which is in front, is not used. -/
theorem sphere_inside_ray_near_root :
    Shape.intersection Shape.Sphere (Ray.new (Vector3.new 0 0 0) (Vector3.new 1 0 0)) =
      some (-1, ⟨Vector3.new (-1) 0 0, Vector3.new (-1) 0 0⟩)
    ∧ ((-1 : ℚ) < 0)
    ∧ (-(2 * ((Vector3.new 1 0 0).dot (Vector3.new 0 0 0))) +
          ratSqrt ((2 * ((Vector3.new 1 0 0).dot (Vector3.new 0 0 0))) ^ 2 -
            4 * (Vector3.new 1 0 0).squared_norm *
              ((Vector3.new 0 0 0).squared_norm - 1))) /
        (2 * (Vector3.new 1 0 0).squared_norm) = 1 := by
  refine ⟨?_, by norm_num, ?_⟩
  · rw [Shape.intersection]
    norm_num [Ray.new, Vector3.new, Vector3.squared_norm, Vector3.dot, Vector3.add,
      Vector3.smul, Vector3.normalized, Vector3.norm, ratSqrt_four, ratSqrt_one]
  · norm_num [Vector3.new, Vector3.squared_norm, Vector3.dot, ratSqrt_four]

/-- Claim C6: an Emissive material returns color * intensity independently
of the sampled direction, the recursive radiance, the scene, the position,
the normal, the view vector and the bounce budget; at color (1,1,1) and
intensity 2 it returns (2,2,2). -/
theorem emissive_lighting_constant (F : FloatOps) (view position normal : Vector3)
    (scene : Scene) (bounces : ℕ) (color : Vector3) (intensity : ℚ) :
    Material.lighting F (Material.Emissive color intensity) view position normal
        scene bounces = color.smul intensity
    ∧ Material.lighting F (Material.Emissive Vector3.ones 2) view position normal
        scene bounces = Vector3.new 2 2 2 := by
  constructor
  · rfl
  · norm_num [Material.lighting, Material.shade, Vector3.ones, Vector3.smul, Vector3.new]

end RayTracer

namespace RayTracer

/-- Claim C3 counterexample: at the concrete inputs below (view, sampled
direction and normal all (0,0,1), the scene holding one emissive unit
sphere so the incoming radiance is (1,1,1), roughness 0, PI modelled as
314159/100000), Material::lighting for Specular returns (2,2,2), while the
formula of the claim — geometry term clamp(1/(4·(view·halfway)²),0,1) —
yields (1/2,1/2,1/2). The code clamps the denominator, not the quotient. -/
theorem specular_clamp_counterexample :
    Material.lighting F0 (Material.Specular (Vector3.new 1 1 1) 0) (Vector3.new 0 0 1)
        (Vector3.new 0 0 (-5)) (Vector3.new 0 0 1) sceneEm 1 = Vector3.new 2 2 2
    ∧ lightingSpecClaimed F0 (Vector3.new 1 1 1) 0 (Vector3.new 0 0 1)
        (Vector3.new 0 0 (-5)) (Vector3.new 0 0 1) sceneEm 1 =
        Vector3.new (1 / 2) (1 / 2) (1 / 2)
    ∧ Vector3.new 2 2 2 ≠ Vector3.new (1 / 2) (1 / 2) (1 / 2) := by
  have hinc : Scene.sample F0 sceneEm 1
      (Ray.new (Vector3.new 0 0 (-5)) (F0.pick (Vector3.new 0 0 1))) (1 / 1000) =
        Vector3.new 1 1 1 := sample_emSphere
  have hhalf : ((Vector3.new 0 0 1).add (F0.pick (Vector3.new 0 0 1))).normalized =
      Vector3.new 0 0 1 := by
    norm_num [F0, Vector3.add, Vector3.new, Vector3.normalized, Vector3.norm,
      Vector3.squared_norm, ratSqrt_four]
  refine ⟨?_, ?_, by norm_num [Vector3.new, Vector3.mk.injEq]⟩
  · rw [Material.lighting, hinc]
    rw [Material.shade, hhalf]
    norm_num [F0, Vector3.dot, Vector3.new, Vector3.smul, Vector3.cwise_mul,
      ratClamp, min_def, max_def]
  · rw [lightingSpecClaimed, hinc, hhalf]
    norm_num [F0, Vector3.dot, Vector3.new, Vector3.smul, Vector3.cwise_mul,
      ratClamp, min_def, max_def]

end RayTracer

namespace RayTracer

/-- Claim C3 (amended): for every Specular material, lighting computes the
geometry factor as g = 1/clamp(4·(view·halfway)², 0, 1) — the clamp applies
to the denominator, so g ≥ 1 whenever view·halfway ≠ 0 — and combines it
with the D term and the color as 2π·(D·g·color)⊙incoming. -/
theorem specular_gterm_amended (F : FloatOps) (color : Vector3) (roughness : ℚ)
    (view position normal : Vector3) (scene : Scene) (bounces : ℕ)
    (dir incoming halfway : Vector3) (d g : ℚ)
    (hdir : dir = F.pick normal)
    (hinc : incoming = Scene.sample F scene bounces (Ray.new position dir) (1 / 1000))
    (hhalf : halfway = (view.add dir).normalized)
    (hd : d = ratClamp ((normal.dot halfway) ^ 2 /
      (roughness * roughness - 2 * roughness + F.piF)) 0 1)
    (hg : g = 1 / ratClamp (4 * (view.dot halfway) ^ 2) 0 1) :
    Material.lighting F (Material.Specular color roughness) view position normal
        scene bounces = ((color.smul (d * g)).cwise_mul incoming).smul (2 * F.piF)
    ∧ (view.dot halfway ≠ 0 → 1 ≤ g) := by
  subst hdir hinc hhalf hd hg
  constructor
  · rfl
  · intro h0
    have h4 : 0 < 4 * (view.dot ((view.add (F.pick normal)).normalized)) ^ 2 := by
      positivity
    have hmin : 0 < min (4 * (view.dot ((view.add (F.pick normal)).normalized)) ^ 2) 1 :=
      lt_min h4 one_pos
    rw [ratClamp, max_eq_right hmin.le]
    rw [le_div_iff₀ hmin, one_mul]
    exact min_le_right _ _

/-- Witness for the amended claim C3 at the concrete counterexample input:
here d = 100000/314159, g = 1 and the combination evaluates as stated. -/
theorem specular_gterm_amended_witness :
    Material.lighting F0 (Material.Specular (Vector3.new 1 1 1) 0) (Vector3.new 0 0 1)
        (Vector3.new 0 0 (-5)) (Vector3.new 0 0 1) sceneEm 1 =
      (((Vector3.new 1 1 1).smul ((100000 / 314159) * 1)).cwise_mul
          (Vector3.new 1 1 1)).smul (2 * F0.piF)
    ∧ ((Vector3.new 0 0 1).dot (Vector3.new 0 0 1) ≠ 0 → (1 : ℚ) ≤ 1) := by
  have hhalf : (Vector3.new 0 0 1 : Vector3) =
      ((Vector3.new 0 0 1).add (F0.pick (Vector3.new 0 0 1))).normalized := by
    norm_num [F0, Vector3.add, Vector3.new, Vector3.normalized, Vector3.norm,
      Vector3.squared_norm, ratSqrt_four]
  refine specular_gterm_amended F0 (Vector3.new 1 1 1) 0 (Vector3.new 0 0 1)
      (Vector3.new 0 0 (-5)) (Vector3.new 0 0 1) sceneEm 1 (Vector3.new 0 0 1)
      (Vector3.new 1 1 1) (Vector3.new 0 0 1) (100000 / 314159) 1
      (by norm_num [F0]) ?_ hhalf ?_ ?_
  · exact sample_emSphere.symm
  · norm_num [F0, Vector3.dot, Vector3.new, ratClamp, min_def, max_def]
  · norm_num [Vector3.dot, Vector3.new, ratClamp, min_def, max_def]

/-- Claim C5: Scene::sample returns black when the bounce budget is zero,
when no intersection beyond tmin exists, and in particular for a scene
with no objects at all. -/
theorem sample_black_cases (F : FloatOps) (scene : Scene) (ray : Ray) (tmin : ℚ)
    (bounces : ℕ) :
    (bounces = 0 → Scene.sample F scene bounces ray tmin = Vector3.zeros)
    ∧ (Scene.closest_intersection F scene ray tmin = none →
        Scene.sample F scene bounces ray tmin = Vector3.zeros)
    ∧ (scene.objects = [] → Scene.sample F scene bounces ray tmin = Vector3.zeros) := by
  refine ⟨?_, ?_, ?_⟩
  · rintro rfl
    rfl
  · intro h
    cases bounces with
    | zero => rfl
    | succ b => simp [Scene.sample, h]
  · intro h
    have hnone : Scene.closest_intersection F scene ray tmin = none := by
      simp [Scene.closest_intersection, h]
    cases bounces with
    | zero => rfl
    | succ b => simp [Scene.sample, hnone]

/-- Witness for claim C5: the empty scene samples to black at five
bounces. -/
theorem sample_black_cases_witness :
    Scene.sample F0 emptyScene 5 ray0 0 = Vector3.zeros :=
  (sample_black_cases F0 emptyScene ray0 0 5).2.2 rfl

end RayTracer

namespace RayTracer

/-- Claim C10: Camera::ray always returns origin (0,0,0); its direction is
the normalization of (x_i, −y_i, focal_len), the vertical offset negated;
and any Vector3.unit result has unit squared norm whenever the input is
non-zero and its squared norm has an exact model square root. -/
theorem camera_ray_origin_and_direction (cam : Camera) (x y x_res y_res : ℕ) :
    (Camera.ray cam x y x_res y_res).origin = Vector3.zeros
    ∧ (Camera.ray cam x y x_res y_res).direction =
        Vector3.unit
          (((x : ℚ) - (x_res : ℚ) / 2) * (cam.width / (x_res : ℚ)))
          (-(((y : ℚ) - (y_res : ℚ) / 2) *
            (cam.width / ((y_res : ℚ) * ((x_res : ℚ) / (y_res : ℚ))))))
          cam.focal_len
    ∧ (∀ a b c : ℚ,
        ratSqrt (a ^ 2 + b ^ 2 + c ^ 2) * ratSqrt (a ^ 2 + b ^ 2 + c ^ 2) =
          a ^ 2 + b ^ 2 + c ^ 2 →
        a ^ 2 + b ^ 2 + c ^ 2 ≠ 0 →
        (Vector3.unit a b c).squared_norm = 1) := by
  refine ⟨rfl, rfl, ?_⟩
  intro a b c hsq hne
  have hn : ratSqrt (a ^ 2 + b ^ 2 + c ^ 2) ≠ 0 := by
    intro h0
    rw [h0, mul_zero] at hsq
    exact hne hsq.symm
  simp only [Vector3.unit, Vector3.squared_norm]
  have hsum : (a / ratSqrt (a ^ 2 + b ^ 2 + c ^ 2)) ^ 2 +
      (b / ratSqrt (a ^ 2 + b ^ 2 + c ^ 2)) ^ 2 +
      (c / ratSqrt (a ^ 2 + b ^ 2 + c ^ 2)) ^ 2 =
      (a ^ 2 + b ^ 2 + c ^ 2) /
        (ratSqrt (a ^ 2 + b ^ 2 + c ^ 2) * ratSqrt (a ^ 2 + b ^ 2 + c ^ 2)) := by
    rw [div_pow, div_pow, div_pow, div_add_div_same, div_add_div_same,
      pow_two (ratSqrt (a ^ 2 + b ^ 2 + c ^ 2))]
  rw [hsum, hsq, div_self hne]

/-- Witness for claim C10: the pixel (0,0) of a 2×2 image with width 2 and
focal length 7/4 has ray direction (−4/9, 4/9, 7/9), of unit squared
norm (the square root taken, of 81/16, is exact). -/
theorem camera_ray_origin_and_direction_witness :
    (Vector3.unit (-1) 1 (7 / 4)).squared_norm = 1 :=
  (camera_ray_origin_and_direction ⟨7 / 4, 2⟩ 0 0 2 2).2.2 (-1) 1 (7 / 4)
    (by norm_num [ratSqrt_81_16]) (by norm_num)

end RayTracer

namespace RayTracer

/-- The fold of Scene::closest_intersection ends in None exactly when the
accumulator was None and no listed hit lies strictly beyond tmin. -/
theorem foldl_iStep_eq_none (tmin : ℚ)
    (l : List (Object × Option (ℚ × Intersection)))
    (acc : Option (ℚ × Intersection × Object)) :
    l.foldl (iStep tmin) acc = none ↔
      acc = none ∧ ∀ p ∈ l, ∀ t i, p.2 = some (t, i) → t ≤ tmin := by
  induction l generalizing acc with
  | nil => simp
  | cons hd tl ih =>
    rw [List.foldl_cons, ih, List.forall_mem_cons]
    rcases hd with ⟨o, oi⟩
    rcases oi with _ | ⟨⟨t₁, i₁⟩⟩ <;> rcases acc with _ | ⟨⟨tc, ic, oc⟩⟩
    · simp [iStep_none_none]
    · simp [iStep_some_none]
    · rw [iStep_none_some]
      split_ifs with h₁
      · simp only [reduceCtorEq, false_and, false_iff, not_and, true_and]
        intro h2
        exact fun _ => absurd (h2 t₁ i₁ rfl) (not_le.mpr h₁)
      · simp only [eq_self_iff_true, true_and, Option.some.injEq, Prod.mk.injEq]
        constructor
        · intro hC
          refine ⟨fun t i hti => ?_, hC⟩
          rcases hti with ⟨ht, -⟩
          exact ht ▸ not_lt.mp h₁
        · exact fun h => h.2
    · rw [iStep_some_some]
      split_ifs with h₁ <;> simp

end RayTracer

namespace RayTracer

/-- If the fold of Scene::closest_intersection returns a hit, that hit is
minimal among the viable listed hits (those strictly beyond tmin); and it
is either the untouched accumulator, or a listed entry strictly beyond
tmin that strictly beats the accumulator and every viable entry listed
before its index (first-seen wins on ties). -/
theorem foldl_iStep_eq_some (tmin : ℚ)
    (l : List (Object × Option (ℚ × Intersection)))
    (acc : Option (ℚ × Intersection × Object)) (t : ℚ) (i : Intersection) (o : Object)
    (h : l.foldl (iStep tmin) acc = some (t, i, o)) :
    (∀ p ∈ l, ∀ t' i', p.2 = some (t', i') → tmin < t' → t ≤ t')
    ∧ (acc = some (t, i, o)
      ∨ (tmin < t
        ∧ (∃ k, l.get? k = some (o, some (t, i))
            ∧ ∀ j, j < k → ∀ o' oi', l.get? j = some (o', oi') →
                ∀ t' i', oi' = some (t', i') → tmin < t' → t < t')
        ∧ ∀ tc ic oc, acc = some (tc, ic, oc) → t < tc)) := by
  induction l generalizing acc with
  | nil =>
    simp only [List.foldl_nil] at h
    exact ⟨by simp, Or.inl h⟩
  | cons hd tl ih =>
    rw [List.foldl_cons] at h
    obtain ⟨hall_tl, hrest⟩ := ih (iStep tmin acc hd) h
    rcases hd with ⟨o₁, oi₁⟩
    rcases oi₁ with _ | ⟨⟨t₁, i₁⟩⟩
    · -- head carries no hit
      rcases acc with _ | ⟨⟨tc, ic, oc⟩⟩
      · rw [iStep_none_none] at hrest
        rcases hrest with h1 | ⟨ht, ⟨k, hk, hfirst⟩, hbeat⟩
        · exact absurd h1 (by simp)
        · refine ⟨?_, Or.inr ⟨ht, ⟨k + 1, by simpa using hk, ?_⟩, by simp⟩⟩
          · rw [List.forall_mem_cons]
            exact ⟨by simp, hall_tl⟩
          · intro j hj o' oi' hj2 t' i' hoi ht'
            cases j with
            | zero =>
              rw [List.get?_cons_zero] at hj2
              obtain ⟨rfl, rfl⟩ : o₁ = o' ∧ (none : Option (ℚ × Intersection)) = oi' := by
                simpa using hj2
              exact absurd hoi (by simp)
            | succ j' =>
              rw [List.get?_cons_succ] at hj2
              exact hfirst j' (Nat.lt_of_succ_lt_succ hj) o' oi' hj2 t' i' hoi ht'
      · rw [iStep_some_none] at hrest
        rcases hrest with h1 | ⟨ht, ⟨k, hk, hfirst⟩, hbeat⟩
        · refine ⟨?_, Or.inl h1⟩
          rw [List.forall_mem_cons]
          exact ⟨by simp, hall_tl⟩
        · refine ⟨?_, Or.inr ⟨ht, ⟨k + 1, by simpa using hk, ?_⟩, ?_⟩⟩
          · rw [List.forall_mem_cons]
            exact ⟨by simp, hall_tl⟩
          · intro j hj o' oi' hj2 t' i' hoi ht'
            cases j with
            | zero =>
              rw [List.get?_cons_zero] at hj2
              obtain ⟨rfl, rfl⟩ : o₁ = o' ∧ (none : Option (ℚ × Intersection)) = oi' := by
                simpa using hj2
              exact absurd hoi (by simp)
            | succ j' =>
              rw [List.get?_cons_succ] at hj2
              exact hfirst j' (Nat.lt_of_succ_lt_succ hj) o' oi' hj2 t' i' hoi ht'
          · intro tc' ic' oc' hacc
            obtain ⟨rfl, rfl, rfl⟩ : tc = tc' ∧ ic = ic' ∧ oc = oc' := by simpa using hacc
            exact hbeat tc ic oc rfl
    · -- head carries a hit (t₁, i₁)
      rcases acc with _ | ⟨⟨tc, ic, oc⟩⟩
      · rw [iStep_none_some] at hrest
        split_ifs at hrest with h₁
        · rcases hrest with h1 | ⟨ht, ⟨k, hk, hfirst⟩, hbeat⟩
          · obtain ⟨rfl, rfl, rfl⟩ : t = t₁ ∧ i = i₁ ∧ o = o₁ := by simpa using h1.symm
            refine ⟨?_, Or.inr ⟨h₁, ⟨0, by simp, ?_⟩, by simp⟩⟩
            · rw [List.forall_mem_cons]
              refine ⟨?_, hall_tl⟩
              intro t' i' h2 ht'
              obtain ⟨rfl, rfl⟩ : t = t' ∧ i = i' := by simpa using h2
              exact le_refl t
            · intro j hj
              exact absurd hj (Nat.not_lt_zero j)
          · have hstrict : t < t₁ := hbeat t₁ i₁ o₁ rfl
            refine ⟨?_, Or.inr ⟨ht, ⟨k + 1, by simpa using hk, ?_⟩, by simp⟩⟩
            · rw [List.forall_mem_cons]
              refine ⟨?_, hall_tl⟩
              intro t' i' h2 ht'
              obtain ⟨rfl, rfl⟩ : t₁ = t' ∧ i₁ = i' := by simpa using h2
              exact le_of_lt hstrict
            · intro j hj o' oi' hj2 t' i' hoi ht'
              cases j with
              | zero =>
                rw [List.get?_cons_zero] at hj2
                obtain ⟨rfl, rfl⟩ :
                    o₁ = o' ∧ (some (t₁, i₁) : Option (ℚ × Intersection)) = oi' := by
                  simpa using hj2
                obtain ⟨rfl, rfl⟩ : t₁ = t' ∧ i₁ = i' := by simpa using hoi
                exact hstrict
              | succ j' =>
                rw [List.get?_cons_succ] at hj2
                exact hfirst j' (Nat.lt_of_succ_lt_succ hj) o' oi' hj2 t' i' hoi ht'
        · rcases hrest with h1 | ⟨ht, ⟨k, hk, hfirst⟩, hbeat⟩
          · exact absurd h1 (by simp)
          · refine ⟨?_, Or.inr ⟨ht, ⟨k + 1, by simpa using hk, ?_⟩, by simp⟩⟩
            · rw [List.forall_mem_cons]
              refine ⟨?_, hall_tl⟩
              intro t' i' h2 ht'
              obtain ⟨rfl, rfl⟩ : t₁ = t' ∧ i₁ = i' := by simpa using h2
              exact absurd ht' h₁
            · intro j hj o' oi' hj2 t' i' hoi ht'
              cases j with
              | zero =>
                rw [List.get?_cons_zero] at hj2
                obtain ⟨rfl, rfl⟩ :
                    o₁ = o' ∧ (some (t₁, i₁) : Option (ℚ × Intersection)) = oi' := by
                  simpa using hj2
                obtain ⟨rfl, rfl⟩ : t₁ = t' ∧ i₁ = i' := by simpa using hoi
                exact absurd ht' h₁
              | succ j' =>
                rw [List.get?_cons_succ] at hj2
                exact hfirst j' (Nat.lt_of_succ_lt_succ hj) o' oi' hj2 t' i' hoi ht'
      · rw [iStep_some_some] at hrest
        split_ifs at hrest with h₁
        · rcases hrest with h1 | ⟨ht, ⟨k, hk, hfirst⟩, hbeat⟩
          · obtain ⟨rfl, rfl, rfl⟩ : t = t₁ ∧ i = i₁ ∧ o = o₁ := by simpa using h1.symm
            refine ⟨?_, Or.inr ⟨h₁.2, ⟨0, by simp, ?_⟩, ?_⟩⟩
            · rw [List.forall_mem_cons]
              refine ⟨?_, hall_tl⟩
              intro t' i' h2 ht'
              obtain ⟨rfl, rfl⟩ : t = t' ∧ i = i' := by simpa using h2
              exact le_refl t
            · intro j hj
              exact absurd hj (Nat.not_lt_zero j)
            · intro tc' ic' oc' hacc
              obtain ⟨rfl, rfl, rfl⟩ : tc = tc' ∧ ic = ic' ∧ oc = oc' := by simpa using hacc
              exact h₁.1
          · have hstrict : t < t₁ := hbeat t₁ i₁ o₁ rfl
            refine ⟨?_, Or.inr ⟨ht, ⟨k + 1, by simpa using hk, ?_⟩, ?_⟩⟩
            · rw [List.forall_mem_cons]
              refine ⟨?_, hall_tl⟩
              intro t' i' h2 ht'
              obtain ⟨rfl, rfl⟩ : t₁ = t' ∧ i₁ = i' := by simpa using h2
              exact le_of_lt hstrict
            · intro j hj o' oi' hj2 t' i' hoi ht'
              cases j with
              | zero =>
                rw [List.get?_cons_zero] at hj2
                obtain ⟨rfl, rfl⟩ :
                    o₁ = o' ∧ (some (t₁, i₁) : Option (ℚ × Intersection)) = oi' := by
                  simpa using hj2
                obtain ⟨rfl, rfl⟩ : t₁ = t' ∧ i₁ = i' := by simpa using hoi
                exact hstrict
              | succ j' =>
                rw [List.get?_cons_succ] at hj2
                exact hfirst j' (Nat.lt_of_succ_lt_succ hj) o' oi' hj2 t' i' hoi ht'
            · intro tc' ic' oc' hacc
              obtain ⟨rfl, rfl, rfl⟩ : tc = tc' ∧ ic = ic' ∧ oc = oc' := by simpa using hacc
              exact lt_trans hstrict h₁.1
        · rcases hrest with h1 | ⟨ht, ⟨k, hk, hfirst⟩, hbeat⟩
          · obtain ⟨rfl, rfl, rfl⟩ : t = tc ∧ i = ic ∧ o = oc := by simpa using h1.symm
            refine ⟨?_, Or.inl rfl⟩
            rw [List.forall_mem_cons]
            refine ⟨?_, hall_tl⟩
            intro t' i' h2 ht'
            obtain ⟨rfl, rfl⟩ : t₁ = t' ∧ i₁ = i' := by simpa using h2
            rcases not_and_or.mp h₁ with hnl | hnr
            · exact not_lt.mp hnl
            · exact absurd ht' hnr
          · have hbtc : t < tc := hbeat tc ic oc rfl
            refine ⟨?_, Or.inr ⟨ht, ⟨k + 1, by simpa using hk, ?_⟩, ?_⟩⟩
            · rw [List.forall_mem_cons]
              refine ⟨?_, hall_tl⟩
              intro t' i' h2 ht'
              obtain ⟨rfl, rfl⟩ : t₁ = t' ∧ i₁ = i' := by simpa using h2
              rcases not_and_or.mp h₁ with hnl | hnr
              · exact le_of_lt (lt_of_lt_of_le hbtc (not_lt.mp hnl))
              · exact absurd ht' hnr
            · intro j hj o' oi' hj2 t' i' hoi ht'
              cases j with
              | zero =>
                rw [List.get?_cons_zero] at hj2
                obtain ⟨rfl, rfl⟩ :
                    o₁ = o' ∧ (some (t₁, i₁) : Option (ℚ × Intersection)) = oi' := by
                  simpa using hj2
                obtain ⟨rfl, rfl⟩ : t₁ = t' ∧ i₁ = i' := by simpa using hoi
                rcases not_and_or.mp h₁ with hnl | hnr
                · exact lt_of_lt_of_le hbtc (not_lt.mp hnl)
                · exact absurd ht' hnr
              | succ j' =>
                rw [List.get?_cons_succ] at hj2
                exact hfirst j' (Nat.lt_of_succ_lt_succ hj) o' oi' hj2 t' i' hoi ht'
            · intro tc' ic' oc' hacc
              obtain ⟨rfl, rfl, rfl⟩ : tc = tc' ∧ ic = ic' ∧ oc = oc' := by simpa using hacc
              exact hbtc

end RayTracer

namespace RayTracer

/-- Claim C4: Scene::closest_intersection returns None exactly when every
object misses or every hit is at or behind tmin; and when it returns a hit
(t, i, o), then t is strictly beyond tmin, o really produces that hit, t is
minimal among all viable hits, and o is the first object in scan order
attaining it (every earlier object with a viable hit is strictly worse). -/
theorem closest_intersection_characterization (F : FloatOps) (scene : Scene)
    (ray : Ray) (tmin : ℚ) :
    (Scene.closest_intersection F scene ray tmin = none ↔
      ∀ o ∈ scene.objects, ∀ t i, Object.intersection F o ray = some (t, i) → t ≤ tmin)
    ∧ (∀ t i o, Scene.closest_intersection F scene ray tmin = some (t, i, o) →
        tmin < t
        ∧ Object.intersection F o ray = some (t, i)
        ∧ (∀ o' ∈ scene.objects, ∀ t' i',
            Object.intersection F o' ray = some (t', i') → tmin < t' → t ≤ t')
        ∧ (∃ k, scene.objects.get? k = some o
            ∧ ∀ j, j < k → ∀ o', scene.objects.get? j = some o' → ∀ t' i',
                Object.intersection F o' ray = some (t', i') → tmin < t' → t < t')) := by
  constructor
  · rw [Scene.closest_intersection, foldl_iStep_eq_none]
    simp only [true_and]
    constructor
    · intro hall o ho t i hoi
      exact hall (o, Object.intersection F o ray)
        (List.mem_map_of_mem _ ho) t i hoi
    · intro hall p hp t i hp2
      obtain ⟨o, ho, rfl⟩ := List.mem_map.mp hp
      exact hall o ho t i hp2
  · intro t i o hsome
    rw [Scene.closest_intersection] at hsome
    obtain ⟨hall, hrest⟩ := foldl_iStep_eq_some tmin _ none t i o hsome
    rcases hrest with h1 | ⟨ht, ⟨k, hk, hfirst⟩, -⟩
    · exact absurd h1 (by simp)
    · rw [List.get?_map] at hk
      rcases hko : scene.objects.get? k with _ | o₀
      · rw [hko] at hk
        exact absurd hk (by simp)
      · rw [hko] at hk
        obtain ⟨h3, h4⟩ : o₀ = o ∧ Object.intersection F o₀ ray = some (t, i) := by
          simpa using hk
        refine ⟨ht, by rw [← h3]; exact h4, ?_, ⟨k, by rw [hko, h3], ?_⟩⟩
        · intro o' ho' t' i' hoi' ht'
          exact hall (o', Object.intersection F o' ray)
            (List.mem_map_of_mem _ ho') t' i' hoi' ht'
        · intro j hj o' hjo t' i' hoi' ht'
          refine hfirst j hj o' (Object.intersection F o' ray) ?_ t' i' hoi' ht'
          rw [List.get?_map, hjo]
          rfl

/-- Witness for claim C4: in the empty scene the fold returns None, and the
None-characterization discharges trivially. -/
theorem closest_intersection_characterization_witness :
    Scene.closest_intersection F0 emptyScene ray0 0 = none :=
  (closest_intersection_characterization F0 emptyScene ray0 0).1.mpr
    (by simp [emptyScene])

end RayTracer

namespace RayTracer

/-- The power branch of srgb_gamma at the branch point 0.0031308 falls
strictly below the value 12.92 · 0.003130799 that the linear branch reaches
just before the branch point: the two branches of the source formula do not
join monotonically. The bound reduces to the exact rational inequality
0.0031308^5 < (2386248077/26375000000)^12. -/
theorem srgb_power_branch_lt :
    (1.055 : ℝ) * (0.0031308 : ℝ) ^ ((1 : ℝ) / 2.4) - 0.055 <
      12.92 * 0.003130799 := by
  have hb : (0 : ℝ) ≤ 0.0031308 := by norm_num
  have he : ((1 : ℝ) / 2.4) = 5 / 12 := by norm_num
  have h12 : ((0.0031308 : ℝ) ^ ((5 : ℝ) / 12)) ^ (12 : ℕ) =
      (0.0031308 : ℝ) ^ (5 : ℕ) := by
    rw [← Real.rpow_natCast ((0.0031308 : ℝ) ^ ((5 : ℝ) / 12)) 12,
      ← Real.rpow_mul hb]
    rw [show ((5 : ℝ) / 12 * ((12 : ℕ) : ℝ) : ℝ) = ((5 : ℕ) : ℝ) by push_cast; ring]
    exact Real.rpow_natCast _ 5
  have hr : (0.0031308 : ℝ) ^ ((5 : ℝ) / 12) < 2386248077 / 26375000000 := by
    apply lt_of_pow_lt_pow_left 12 (by norm_num : (0 : ℝ) ≤ 2386248077 / 26375000000)
    rw [h12]
    norm_num
  rw [he]
  linarith [hr]

/-- Claim C7 counterexample: srgb_gamma is not monotonically increasing on
[0, 1]: at u = 0.003130799 < v = 0.0031308, both inside [0, 1], the linear
branch value srgb_gamma u = 12.92 u strictly exceeds the power branch value
srgb_gamma v (the branches of the source constants do not join exactly, and
the jump at the branch point is downward, of size about 3e-8). -/
theorem srgb_gamma_monotone_counterexample :
    (0.003130799 : ℝ) ∈ Set.Icc (0 : ℝ) 1
    ∧ (0.0031308 : ℝ) ∈ Set.Icc (0 : ℝ) 1
    ∧ (0.003130799 : ℝ) < 0.0031308
    ∧ srgb_gamma 0.0031308 < srgb_gamma 0.003130799
    ∧ ¬ MonotoneOn srgb_gamma (Set.Icc (0 : ℝ) 1) := by
  have h1 : srgb_gamma 0.003130799 = 12.92 * 0.003130799 := by
    rw [srgb_gamma, if_pos (by norm_num)]
  have h2 : srgb_gamma 0.0031308 =
      1.055 * (0.0031308 : ℝ) ^ ((1 : ℝ) / 2.4) - 0.055 := by
    rw [srgb_gamma, if_neg (by norm_num)]
  have hkey : srgb_gamma 0.0031308 < srgb_gamma 0.003130799 := by
    rw [h1, h2]
    exact srgb_power_branch_lt
  refine ⟨by norm_num [Set.mem_Icc], by norm_num [Set.mem_Icc], by norm_num, hkey, ?_⟩
  intro hmono
  have hle := hmono (by norm_num [Set.mem_Icc] : (0.003130799 : ℝ) ∈ Set.Icc (0 : ℝ) 1)
    (by norm_num [Set.mem_Icc] : (0.0031308 : ℝ) ∈ Set.Icc (0 : ℝ) 1)
    (by norm_num)
  linarith [hkey, hle]

/-- Claim C7 (amended): srgb_gamma fixes 0 and 1 and is strictly increasing
on each branch, [0, 0.0031308) and [0.0031308, 1]; it is not monotone on
the whole of [0, 1] because of the downward jump at the branch point. -/
theorem srgb_gamma_endpoints_and_branches :
    srgb_gamma 0 = 0
    ∧ srgb_gamma 1 = 1
    ∧ StrictMonoOn srgb_gamma (Set.Ico (0 : ℝ) 0.0031308)
    ∧ StrictMonoOn srgb_gamma (Set.Icc (0.0031308 : ℝ) 1) := by
  refine ⟨?_, ?_, ?_, ?_⟩
  · rw [srgb_gamma, if_pos (by norm_num)]
    ring
  · rw [srgb_gamma, if_neg (by norm_num), Real.one_rpow]
    norm_num
  · intro a ha b hb hab
    simp only [srgb_gamma]
    rw [if_pos ha.2, if_pos hb.2]
    linarith
  · intro a ha b hb hab
    simp only [srgb_gamma]
    rw [if_neg (not_lt.mpr ha.1), if_neg (not_lt.mpr hb.1)]
    have h0a : (0 : ℝ) ≤ a := le_trans (by norm_num) ha.1
    have hpow := Real.rpow_lt_rpow h0a hab (by norm_num : (0 : ℝ) < 1 / 2.4)
    linarith

/-- Witness for the amended claim C7: the branch point maps strictly below
the image of 1 on the power branch. -/
theorem srgb_gamma_endpoints_and_branches_witness :
    srgb_gamma 0.0031308 < srgb_gamma 1 :=
  srgb_gamma_endpoints_and_branches.2.2.2 (by norm_num [Set.mem_Icc])
    (by norm_num [Set.mem_Icc]) (by norm_num)

end RayTracer
